import Mathlib

/-!
Verification of the cliclack interactive prompt engine.

The repository ships `src/lib.rs` (public constructors, message helpers and
the `log` submodule).  The variant modules (`prompt.rs`, `confirm.rs`,
`input.rs`, `select.rs`, `multiselect.rs`, `spinner.rs`, `theme.rs`) are not
present under `src/`; their behaviour is modelled from the specification,
and every such definition is marked `Modelled from the spec:` in its doc
comment.  Definitions taken from `src/lib.rs` cite their line range.
-/

namespace Cliclack

/-- Key events, per the terminal-collaborator contract (spec §6):
`KeyEvent ∈ {Char(c), Enter, Escape, Backspace, ArrowUp, ArrowDown,
ArrowLeft, ArrowRight, Tab, CtrlC, Other}`. -/
inductive KeyEvent where
  | Char (c : Char)
  | Enter
  | Escape
  | Backspace
  | ArrowUp
  | ArrowDown
  | ArrowLeft
  | ArrowRight
  | Tab
  | CtrlC
  | Other
deriving DecidableEq, Repr

/-- Prompt outcome (spec §3): `Active`, `Submitted(V)` or `Cancelled`. -/
inductive Outcome (V : Type) where
  | Active
  | Submitted (v : V)
  | Cancelled
deriving DecidableEq, Repr

/-- The generic prompt state `PromptState<V>` (spec §3): candidate value,
last validation error, and outcome. -/
structure PromptState (V : Type) where
  value : V
  error : Option String
  outcome : Outcome V
deriving DecidableEq, Repr

/-- Result of dispatching one key to a variant's key handler (spec §4.1
step 3): the handler either mutates the value, requests submission of a
candidate value, or leaves the state alone. -/
inductive KeyResult (V : Type) where
  | update (v : V)
  | submit (v : V)
  | ignore
deriving DecidableEq, Repr

/-- Modelled from the spec: `prompt.rs` (the shared `interact()` loop body)
is not under `src/`.  One iteration of the prompt state machine (spec §4.1):
on `Esc` the outcome becomes `Cancelled` immediately, bypassing validation;
otherwise the key is dispatched to the variant handler; an `update` edits
the value and clears the error ("cleared on next edit", spec §3); a
`submit` runs the Validator — an error message keeps the prompt `Active`
with `error` set, no error transitions to `Submitted`. -/
def machineStep {V : Type} (validator : V → Option String)
    (handler : KeyEvent → V → KeyResult V)
    (s : PromptState V) (k : KeyEvent) : PromptState V :=
  match k with
  | .Escape => { s with outcome := .Cancelled }
  | _ =>
    match handler k s.value with
    | .ignore => s
    | .update v => { value := v, error := none, outcome := s.outcome }
    | .submit v =>
      match validator v with
      | some e => { s with error := some e }
      | none => { value := v, error := none, outcome := .Submitted v }

/-- Modelled from the spec: `confirm.rs` is not under `src/`.  Confirm key
handling (spec §4.3): `y`/`Y` → set true and submit immediately; `n`/`N` →
set false and submit immediately; Left/Right/Tab → toggle; Enter → submit
the current boolean.  (The crate doc, `src/lib.rs` lines 88–91, states that
`Y` and `N` are accepted as an immediate answer.) -/
def confirmHandler (k : KeyEvent) (b : Bool) : KeyResult Bool :=
  match k with
  | .Char c =>
    if c = 'y' ∨ c = 'Y' then .submit true
    else if c = 'n' ∨ c = 'N' then .submit false
    else .ignore
  | .ArrowLeft => .update (!b)
  | .ArrowRight => .update (!b)
  | .Tab => .update (!b)
  | .Enter => .submit b
  | _ => .ignore

/-- Modelled from the spec: Confirm has "no parse/validate step — Confirm
never fails validation" (spec §4.3), so its validator accepts everything. -/
def confirmValidator : Bool → Option String := fun _ => none

/-- One step of the Confirm prompt through the shared state machine. -/
def confirmStep (s : PromptState Bool) (k : KeyEvent) : PromptState Bool :=
  machineStep confirmValidator confirmHandler s k

/-- `ListItem<T>` (spec §3): `(value, label, hint)`; identity by position. -/
structure ListItem (T : Type) where
  value : T
  label : String
  hint : String
deriving DecidableEq, Repr

/-- Modelled from the spec: `select.rs` is not under `src/`.  Select prompt
state (spec §4.4): an active index into an ordered item sequence. -/
structure SelectState (T : Type) where
  items : List (ListItem T)
  active : Nat
deriving DecidableEq, Repr

/-- Modelled from the spec: Select/MultiSelect navigation (spec §4.4):
Up/Down move the active index by ±1, clamped (no wrap) at `0` and `len-1`;
pressing Up at index 0 (or Down at `len-1`) is a no-op. -/
def selectNavStep {T : Type} (s : SelectState T) (k : KeyEvent) : SelectState T :=
  match k with
  | .ArrowUp => if s.active = 0 then s else { s with active := s.active - 1 }
  | .ArrowDown =>
    if s.active + 1 < s.items.length then { s with active := s.active + 1 } else s
  | _ => s

/-- Folding a whole key sequence through Select navigation. -/
def selectNavRun {T : Type} (s : SelectState T) (ks : List KeyEvent) : SelectState T :=
  ks.foldl selectNavStep s

/-- Modelled from the spec: first index whose item value equals the
configured default (spec §4.4, "first match wins"). -/
def findDefaultIdx {T : Type} [DecidableEq T] (d : T) :
    List (ListItem T) → Option Nat
  | [] => none
  | it :: rest =>
    if it.value = d then some 0 else (findDefaultIdx d rest).map (· + 1)

/-- Modelled from the spec: the initial active index of a Select prompt
(spec §4.4): the position of the first item whose value equals the
configured default; no match, or no configured default, gives index 0. -/
def initialIndex {T : Type} [DecidableEq T] (items : List (ListItem T))
    (dflt : Option T) : Nat :=
  match dflt with
  | none => 0
  | some d => (findDefaultIdx d items).getD 0

/-- Modelled from the spec: `multiselect.rs` is not under `src/`.
MultiSelect prompt state (spec §4.5): active index plus a set of checked
indices. -/
structure MultiSelectState (T : Type) where
  items : List (ListItem T)
  active : Nat
  checked : Finset Nat

/-- Modelled from the spec: Space toggles membership of an index in the
checked set (spec §4.5). -/
def toggle (c : Finset Nat) (i : Nat) : Finset Nat :=
  if i ∈ c then c.erase i else insert i c

/-- Applying a whole sequence of toggles to a checked set. -/
def toggleRun (ts : List Nat) (c : Finset Nat) : Finset Nat :=
  ts.foldl toggle c

/-- Modelled from the spec: the value submitted on Enter by MultiSelect
(spec §4.5): "the ordered subsequence of item values whose index is in the
checked set (original item order preserved, not toggle order)". -/
def msSubmitValues {T : Type} (items : List (ListItem T))
    (checked : Finset Nat) : List T :=
  (items.enum.filter fun p => decide (p.1 ∈ checked)).map fun p => p.2.value

/-- Modelled from the spec: one MultiSelect key step over the full state
(spec §4.5): Up/Down clamp as in Select, Space toggles the active index. -/
def msStep {T : Type} (s : MultiSelectState T) (k : KeyEvent) : MultiSelectState T :=
  match k with
  | .ArrowUp => if s.active = 0 then s else { s with active := s.active - 1 }
  | .ArrowDown =>
    if s.active + 1 < s.items.length then { s with active := s.active + 1 } else s
  | .Char c =>
    if c = ' ' then { s with checked := toggle s.checked s.active } else s
  | _ => s

/-- Folding a whole key sequence through MultiSelect steps. -/
def msRun {T : Type} (s : MultiSelectState T) (ks : List KeyEvent) : MultiSelectState T :=
  ks.foldl msStep s

/-- Modelled from the spec: `input.rs` is not under `src/`.  Input prompt
state (spec §4.2): a character-granular text buffer plus a cursor offset. -/
structure InputState where
  buffer : List Char
  cursor : Nat
deriving DecidableEq, Repr

/-- Modelled from the spec: Input key handling (spec §4.2): a printable
character is inserted at the cursor and the cursor advances by one;
Backspace deletes the character before the cursor, if any, and moves the
cursor back; Left/Right move the cursor within `[0, len]`. -/
def inputStep (s : InputState) (k : KeyEvent) : InputState :=
  match k with
  | .Char c => { buffer := s.buffer.insertIdx s.cursor c, cursor := s.cursor + 1 }
  | .Backspace =>
    if s.cursor = 0 then s
    else { buffer := s.buffer.eraseIdx (s.cursor - 1), cursor := s.cursor - 1 }
  | .ArrowLeft => { s with cursor := s.cursor - 1 }
  | .ArrowRight => { s with cursor := min (s.cursor + 1) s.buffer.length }
  | _ => s

/-- Modelled from the spec: "Password differs only in rendering" (spec
§4.2); its editing state machine is the Input one. -/
def passwordStep (s : InputState) (k : KeyEvent) : InputState :=
  inputStep s k

/-- The Input editing state reached from the fresh empty state (spec §3:
prompt state is created fresh per `interact()` call). -/
def inputRun (ks : List KeyEvent) : InputState :=
  ks.foldl inputStep ⟨[], 0⟩

/-- The Password editing state reached from the fresh empty state. -/
def passwordRun (ks : List KeyEvent) : InputState :=
  ks.foldl passwordStep ⟨[], 0⟩

/-- Modelled from the spec: `spinner.rs` is not under `src/`.  Spinner
animation state (spec §3): `frame_index` advanced modulo the glyph-sequence
length, the current message, and a running flag; `numFrames` is the length
of the theme's glyph sequence. -/
structure SpinnerState where
  numFrames : Nat
  frame_index : Nat
  message : String
  running : Bool
deriving DecidableEq, Repr

/-- Modelled from the spec: `start(message)` transitions to Running and
begins the fixed-interval tick (spec §4.6). -/
def spinnerStart (st : SpinnerState) (msg : String) : SpinnerState :=
  { st with running := true, message := msg }

/-- Modelled from the spec: one fixed-interval tick advances `frame_index`
modulo the glyph-sequence length while Running; once the tick is cancelled
(after stop) a tick event changes nothing (spec §4.6).  Real time is
abstracted into one event per elapsed tick interval. -/
def spinnerTick (st : SpinnerState) : SpinnerState :=
  if st.running then
    { st with frame_index := (st.frame_index + 1) % st.numFrames }
  else st

/-- Modelled from the spec: `stop(message)` transitions to Stopped, renders
the closing message once, and cancels the tick (spec §4.6). -/
def spinnerStop (st : SpinnerState) (msg : String) : SpinnerState :=
  { st with running := false, message := msg }

/-- A capability a Rust generic bound can demand of a caller-supplied item
value type. -/
inductive Capability where
  | eqCap
  | ordCap
  | hashCap
  | defaultCap
  | cloneCap
deriving DecidableEq, Repr

/-- The trait bounds of the `select` constructor, `src/lib.rs` line 220:
`pub fn select<T: Default + Clone + Eq>(prompt: impl Display) -> Select<T>`. -/
def select_bounds : List Capability := [.defaultCap, .cloneCap, .eqCap]

/-- The trait bounds of the `multiselect` constructor, `src/lib.rs`
line 227: `pub fn multiselect<T: Default + Clone + Eq>(prompt: impl
Display) -> MultiSelect<T>`. -/
def multiselect_bounds : List Capability := [.defaultCap, .cloneCap, .eqCap]

/-- A terminal stream. -/
inductive Fd where
  | stdout
  | stderr
deriving DecidableEq, Repr

/-- An observable terminal effect: writing text to a stream, or clearing a
stream's screen. -/
inductive TermAction where
  | write (fd : Fd) (text : String)
  | clear (fd : Fd)
deriving DecidableEq, Repr

/-- Modelled from the spec: `theme.rs` is not under `src/`; the theme's
format functions are pure string formatting with no I/O and no state
(spec §1, §6), so they are abstracted as an arbitrary family of pure
functions together with the symbol glyphs used by the `log` submodule. -/
structure ThemeModel where
  format_intro : String → String
  format_outro : String → String
  format_cancel : String → String
  format_note : String → String → String
  format_log : String → String → String
  remark_symbol : String
  info_symbol : String
  warning_symbol : String
  error_symbol : String
  active_symbol : String
  submit_symbol : String

/-- `term_write` (src/lib.rs lines 178–180): writes the line to
`Term::stderr()` only. -/
def term_write (line : String) : List TermAction := [.write .stderr line]

/-- `clear_screen` (src/lib.rs lines 183–186): clears stdout, then
stderr. -/
def clear_screen : List TermAction := [.clear .stdout, .clear .stderr]

/-- `intro` (src/lib.rs lines 189–191). -/
def intro (th : ThemeModel) (title : String) : List TermAction :=
  term_write (th.format_intro title)

/-- `outro` (src/lib.rs lines 193–196). -/
def outro (th : ThemeModel) (message : String) : List TermAction :=
  term_write (th.format_outro message)

/-- `outro_cancel` (src/lib.rs lines 198–201). -/
def outro_cancel (th : ThemeModel) (message : String) : List TermAction :=
  term_write (th.format_cancel message)

/-- `note` (src/lib.rs lines 245–248). -/
def note (th : ThemeModel) (prompt message : String) : List TermAction :=
  term_write (th.format_note prompt message)

namespace log

/-- `log::log` (src/lib.rs lines 254–256). -/
def log (th : ThemeModel) (text symbol : String) : List TermAction :=
  term_write (th.format_log text symbol)

/-- `log::remark` (src/lib.rs lines 259–261). -/
def remark (th : ThemeModel) (text : String) : List TermAction :=
  log th text th.remark_symbol

/-- `log::info` (src/lib.rs lines 263–266). -/
def info (th : ThemeModel) (text : String) : List TermAction :=
  log th text th.info_symbol

/-- `log::warning` (src/lib.rs lines 268–271). -/
def warning (th : ThemeModel) (message : String) : List TermAction :=
  log th message th.warning_symbol

/-- `log::error` (src/lib.rs lines 273–276). -/
def error (th : ThemeModel) (message : String) : List TermAction :=
  log th message th.error_symbol

/-- `log::success` (src/lib.rs lines 278–281). -/
def success (th : ThemeModel) (message : String) : List TermAction :=
  log th message th.active_symbol

/-- `log::step` (src/lib.rs lines 283–286). -/
def step (th : ThemeModel) (message : String) : List TermAction :=
  log th message th.submit_symbol

end log

/-- Whether an action touches only the standard error stream. -/
def stderrOnly : TermAction → Bool
  | .write .stderr _ => true
  | .clear .stderr => true
  | _ => false

end Cliclack

namespace Cliclack

/-- C6: A submission attempt whose candidate value the Validator rejects
leaves the candidate value unchanged, sets the error message, and keeps the
outcome Active; any submission attempt the Validator accepts clears the
error and transitions to Submitted — so every step either stays Active or
terminates with a validated value, and validation failures never escape the
loop. -/
theorem validation_loop_idempotence {V : Type}
    (validator : V → Option String) (handler : KeyEvent → V → KeyResult V)
    (s : PromptState V) (e : String)
    (hsub : handler .Enter s.value = .submit s.value)
    (hrej : validator s.value = some e)
    (hact : s.outcome = .Active) :
    (machineStep validator handler s .Enter).value = s.value ∧
    (machineStep validator handler s .Enter).error = some e ∧
    (machineStep validator handler s .Enter).outcome = .Active ∧
    (∀ s' : PromptState V,
      handler .Enter s'.value = .submit s'.value → validator s'.value = none →
      (machineStep validator handler s' .Enter).error = none ∧
      (machineStep validator handler s' .Enter).outcome = .Submitted s'.value ∧
      (machineStep validator handler s' .Enter).value = s'.value) := by
  refine ⟨?_, ?_, ?_, ?_⟩
  · simp [machineStep, hsub, hrej]
  · simp [machineStep, hsub, hrej]
  · simp [machineStep, hsub, hrej, hact]
  · intro s' hsub' hacc
    refine ⟨?_, ?_, ?_⟩ <;> simp [machineStep, hsub', hacc]

/-- Witness for C6: an Input-like prompt over strings whose validator
rejects the empty string; submitting "" fails and loops, submitting "hi"
succeeds. -/
theorem validation_loop_idempotence_witness :
    (machineStep (fun v : String => if v = "" then some "Value is required!" else none)
      (fun k v => if k = .Enter then .submit v else .ignore)
      ⟨"", none, .Active⟩ .Enter).value = "" ∧
    (machineStep (fun v : String => if v = "" then some "Value is required!" else none)
      (fun k v => if k = .Enter then .submit v else .ignore)
      ⟨"", none, .Active⟩ .Enter).error = some "Value is required!" ∧
    (machineStep (fun v : String => if v = "" then some "Value is required!" else none)
      (fun k v => if k = .Enter then .submit v else .ignore)
      ⟨"", none, .Active⟩ .Enter).outcome = .Active ∧
    (∀ s' : PromptState String,
      (fun k v => if k = .Enter then KeyResult.submit v else .ignore) KeyEvent.Enter s'.value
        = .submit s'.value →
      (fun v : String => if v = "" then some "Value is required!" else none) s'.value = none →
      (machineStep (fun v : String => if v = "" then some "Value is required!" else none)
        (fun k v => if k = .Enter then .submit v else .ignore) s' .Enter).error = none ∧
      (machineStep (fun v : String => if v = "" then some "Value is required!" else none)
        (fun k v => if k = .Enter then .submit v else .ignore) s' .Enter).outcome
          = .Submitted s'.value ∧
      (machineStep (fun v : String => if v = "" then some "Value is required!" else none)
        (fun k v => if k = .Enter then .submit v else .ignore) s' .Enter).value = s'.value) :=
  validation_loop_idempotence
    (fun v : String => if v = "" then some "Value is required!" else none)
    (fun k v => if k = .Enter then .submit v else .ignore)
    ⟨"", none, .Active⟩ "Value is required!" (by simp) (by simp) rfl

/-- C7: For every Confirm prompt in the Active state, pressing `y`/`Y`
immediately yields `Submitted true`, pressing `n`/`N` immediately yields
`Submitted false` (no Enter required); Enter submits the current boolean
with no validation failure (error stays `none`). -/
theorem confirm_immediate_keys (s : PromptState Bool) (h : s.outcome = .Active) :
    (confirmStep s (.Char 'y')).outcome = .Submitted true ∧
    (confirmStep s (.Char 'Y')).outcome = .Submitted true ∧
    (confirmStep s (.Char 'n')).outcome = .Submitted false ∧
    (confirmStep s (.Char 'N')).outcome = .Submitted false ∧
    (confirmStep s .Enter).outcome = .Submitted s.value ∧
    (confirmStep s .Enter).error = none := by
  refine ⟨?_, ?_, ?_, ?_, ?_, ?_⟩ <;>
    simp [confirmStep, machineStep, confirmHandler, confirmValidator]

/-- Witness for C7 at a concrete Active Confirm state. -/
theorem confirm_immediate_keys_witness :
    (confirmStep ⟨true, none, .Active⟩ (.Char 'y')).outcome = .Submitted true ∧
    (confirmStep ⟨true, none, .Active⟩ (.Char 'Y')).outcome = .Submitted true ∧
    (confirmStep ⟨true, none, .Active⟩ (.Char 'n')).outcome = .Submitted false ∧
    (confirmStep ⟨true, none, .Active⟩ (.Char 'N')).outcome = .Submitted false ∧
    (confirmStep ⟨true, none, .Active⟩ .Enter).outcome = .Submitted true ∧
    (confirmStep ⟨true, none, .Active⟩ .Enter).error = none :=
  confirm_immediate_keys ⟨true, none, .Active⟩ rfl

/-- One navigation step preserves the item list and keeps the active index
in bounds. -/
theorem selectNavStep_preserves {T : Type} (s : SelectState T) (k : KeyEvent)
    (h : s.active < s.items.length) :
    (selectNavStep s k).items = s.items ∧
    (selectNavStep s k).active < s.items.length := by
  cases k with
  | ArrowUp =>
    simp only [selectNavStep]
    split
    · exact ⟨rfl, h⟩
    · exact ⟨rfl, by show s.active - 1 < s.items.length; omega⟩
  | ArrowDown =>
    simp only [selectNavStep]
    split
    · rename_i hlt
      exact ⟨rfl, by show s.active + 1 < s.items.length; exact hlt⟩
    · exact ⟨rfl, h⟩
  | _ => exact ⟨rfl, h⟩

/-- Navigation over any key sequence preserves the item list and keeps the
active index in bounds. -/
theorem selectNavRun_preserves {T : Type} (ks : List KeyEvent) :
    ∀ s : SelectState T, s.active < s.items.length →
      (selectNavRun s ks).items = s.items ∧
      (selectNavRun s ks).active < s.items.length := by
  induction ks with
  | nil => exact fun s h => ⟨rfl, h⟩
  | cons k ks ih =>
    intro s h
    have hstep := selectNavStep_preserves s k h
    have hrest := ih (selectNavStep s k) (by rw [hstep.1]; exact hstep.2)
    exact ⟨hrest.1.trans hstep.1, hstep.1 ▸ hrest.2⟩

/-- One MultiSelect step preserves the item list and keeps the active index
in bounds. -/
theorem msStep_preserves {T : Type} (s : MultiSelectState T) (k : KeyEvent)
    (h : s.active < s.items.length) :
    (msStep s k).items = s.items ∧ (msStep s k).active < s.items.length := by
  cases k with
  | Char c =>
    simp only [msStep]
    split
    · exact ⟨rfl, h⟩
    · exact ⟨rfl, h⟩
  | ArrowUp =>

    simp only [msStep]
    split
    · exact ⟨rfl, h⟩
    · exact ⟨rfl, by show s.active - 1 < s.items.length; omega⟩
  | ArrowDown =>
    simp only [msStep]
    split
    · rename_i hlt
      exact ⟨rfl, by show s.active + 1 < s.items.length; exact hlt⟩
    · exact ⟨rfl, h⟩
  | _ => exact ⟨rfl, h⟩

/-- MultiSelect steps over any key sequence preserve the item list and the
active-index bound. -/
theorem msRun_preserves {T : Type} (ks : List KeyEvent) :
    ∀ s : MultiSelectState T, s.active < s.items.length →
      (msRun s ks).items = s.items ∧ (msRun s ks).active < s.items.length := by
  induction ks with
  | nil => exact fun s h => ⟨rfl, h⟩
  | cons k ks ih =>
    intro s h
    have hstep := msStep_preserves s k h
    have hrest := ih (msStep s k) (by rw [hstep.1]; exact hstep.2)
    exact ⟨hrest.1.trans hstep.1, hstep.1 ▸ hrest.2⟩

/-- C4: On Select and MultiSelect, for every sequence of key events the
active index stays within `[0, N-1]` (and the item list is untouched), and
pressing Up at index 0, or Down at index `N-1`, leaves the entire prompt
state unchanged (no wrap-around). -/
theorem list_clamp_no_wrap {T : Type} (s : SelectState T) (ms : MultiSelectState T)
    (hs : s.active < s.items.length) (hm : ms.active < ms.items.length)
    (ks : List KeyEvent) :
    ((selectNavRun s ks).items = s.items ∧
      (selectNavRun s ks).active < s.items.length) ∧
    (s.active = 0 → selectNavStep s .ArrowUp = s) ∧
    (s.active + 1 = s.items.length → selectNavStep s .ArrowDown = s) ∧
    ((msRun ms ks).items = ms.items ∧ (msRun ms ks).active < ms.items.length) ∧
    (ms.active = 0 → msStep ms .ArrowUp = ms) ∧
    (ms.active + 1 = ms.items.length → msStep ms .ArrowDown = ms) := by
  refine ⟨selectNavRun_preserves ks s hs, ?_, ?_, msRun_preserves ks ms hm, ?_, ?_⟩
  · intro h0; simp [selectNavStep, h0]
  · intro hl; simp only [selectNavStep]; rw [if_neg (by omega)]
  · intro h0; simp [msStep, h0]
  · intro hl; simp only [msStep]; rw [if_neg (by omega)]

/-- Witness for C4: two concrete 3-item prompts driven past both ends. -/
theorem list_clamp_no_wrap_witness :
    (0 : Nat) < ([⟨0, "a", ""⟩, ⟨1, "b", ""⟩, ⟨2, "c", ""⟩] :
        List (ListItem Nat)).length ∧
    (((selectNavRun ⟨[⟨0, "a", ""⟩, ⟨1, "b", ""⟩, ⟨2, "c", ""⟩], 0⟩
        [.ArrowUp, .ArrowDown, .ArrowDown, .ArrowDown, .ArrowDown]).items
        = [⟨0, "a", ""⟩, ⟨1, "b", ""⟩, ⟨2, "c", ""⟩] ∧
      (selectNavRun ⟨[⟨0, "a", ""⟩, ⟨1, "b", ""⟩, ⟨2, "c", ""⟩], 0⟩
        [.ArrowUp, .ArrowDown, .ArrowDown, .ArrowDown, .ArrowDown]).active < 3) ∧
      ((0 : Nat) = 0 →
        selectNavStep (⟨[⟨0, "a", ""⟩, ⟨1, "b", ""⟩, ⟨2, "c", ""⟩], 0⟩ :
          SelectState Nat) .ArrowUp
          = ⟨[⟨0, "a", ""⟩, ⟨1, "b", ""⟩, ⟨2, "c", ""⟩], 0⟩) ∧
      ((0 : Nat) + 1 = 3 →
        selectNavStep (⟨[⟨0, "a", ""⟩, ⟨1, "b", ""⟩, ⟨2, "c", ""⟩], 0⟩ :
          SelectState Nat) .ArrowDown
          = ⟨[⟨0, "a", ""⟩, ⟨1, "b", ""⟩, ⟨2, "c", ""⟩], 0⟩) ∧
      ((msRun ⟨[⟨0, "a", ""⟩, ⟨1, "b", ""⟩, ⟨2, "c", ""⟩], 0, ∅⟩
        [.ArrowUp, .ArrowDown, .ArrowDown, .ArrowDown, .ArrowDown]).items
        = [⟨0, "a", ""⟩, ⟨1, "b", ""⟩, ⟨2, "c", ""⟩] ∧
      (msRun ⟨[⟨0, "a", ""⟩, ⟨1, "b", ""⟩, ⟨2, "c", ""⟩], 0, ∅⟩
        [.ArrowUp, .ArrowDown, .ArrowDown, .ArrowDown, .ArrowDown]).active < 3) ∧
      ((0 : Nat) = 0 →
        msStep (⟨[⟨0, "a", ""⟩, ⟨1, "b", ""⟩, ⟨2, "c", ""⟩], 0, ∅⟩ :
          MultiSelectState Nat) .ArrowUp
          = ⟨[⟨0, "a", ""⟩, ⟨1, "b", ""⟩, ⟨2, "c", ""⟩], 0, ∅⟩) ∧
      ((0 : Nat) + 1 = 3 →
        msStep (⟨[⟨0, "a", ""⟩, ⟨1, "b", ""⟩, ⟨2, "c", ""⟩], 0, ∅⟩ :
          MultiSelectState Nat) .ArrowDown
          = ⟨[⟨0, "a", ""⟩, ⟨1, "b", ""⟩, ⟨2, "c", ""⟩], 0, ∅⟩)) :=
  ⟨by decide,
    list_clamp_no_wrap ⟨[⟨0, "a", ""⟩, ⟨1, "b", ""⟩, ⟨2, "c", ""⟩], 0⟩
      ⟨[⟨0, "a", ""⟩, ⟨1, "b", ""⟩, ⟨2, "c", ""⟩], 0, ∅⟩
      (by decide) (by decide)
      [.ArrowUp, .ArrowDown, .ArrowDown, .ArrowDown, .ArrowDown]⟩

/-- `findDefaultIdx` returns the first matching position. -/
theorem findDefaultIdx_eq_first {T : Type} [DecidableEq T] (d : T) :
    ∀ (items : List (ListItem T)) (i : Nat) (hi : i < items.length),
      items[i].value = d →
      (∀ k (hk : k < items.length), k < i → items[k].value ≠ d) →
      findDefaultIdx d items = some i := by
  intro items
  induction items with
  | nil => intro i hi; exact absurd hi (by simp)
  | cons it rest ih =>
    intro i hi hval hfirst
    cases i with
    | zero =>
      simp only [List.getElem_cons_zero] at hval
      simp [findDefaultIdx, hval]
    | succ i =>
      have hne : it.value ≠ d := by
        have := hfirst 0 (by omega) (by omega)
        simpa using this
      have hi' : i < rest.length := by simpa using hi
      have hval' : rest[i].value = d := by simpa using hval
      have hfirst' : ∀ k (hk : k < rest.length), k < i → rest[k].value ≠ d := by
        intro k hk hki
        have := hfirst (k + 1) (by simpa using Nat.succ_lt_succ hk) (by omega)
        simpa using this
      simp only [findDefaultIdx, if_neg hne, ih i hi' hval' hfirst']
      rfl

/-- `findDefaultIdx` returns `none` when no item value matches. -/
theorem findDefaultIdx_eq_none {T : Type} [DecidableEq T] (d : T) :
    ∀ items : List (ListItem T),
      (∀ j (hj : j < items.length), items[j].value ≠ d) →
      findDefaultIdx d items = none := by
  intro items
  induction items with
  | nil => intro _; rfl
  | cons it rest ih =>
    intro hno
    have hne : it.value ≠ d := by
      have := hno 0 (by simp)
      simpa using this
    have hrest : ∀ j (hj : j < rest.length), rest[j].value ≠ d := by
      intro j hj
      have := hno (j + 1) (by simpa using Nat.succ_lt_succ hj)
      simpa using this
    simp [findDefaultIdx, if_neg hne, ih hrest]

/-- C8: With a configured default, the initial active index of a Select
prompt is the position of the first item whose value equals the default
(first match wins); with no matching item, or no configured default, it
is 0. -/
theorem select_default_initial_index {T : Type} [DecidableEq T]
    (items : List (ListItem T)) (d : T) (i : Nat) (hi : i < items.length)
    (hval : items[i].value = d)
    (hfirst : ∀ k (hk : k < items.length), k < i → items[k].value ≠ d) :
    initialIndex items (some d) = i ∧
    initialIndex items (none : Option T) = 0 ∧
    (∀ (its : List (ListItem T)) (d' : T),
      (∀ j (hj : j < its.length), its[j].value ≠ d') →
      initialIndex its (some d') = 0) := by
  refine ⟨?_, rfl, ?_⟩
  · simp [initialIndex, findDefaultIdx_eq_first d items i hi hval hfirst]
  · intro its d' hno
    simp [initialIndex, findDefaultIdx_eq_none d' its hno]

/-- Witness for C8: three items with values `[5, 7, 7]` and default `7`;
the first match is at index 1. -/
theorem select_default_initial_index_witness :
    initialIndex [⟨5, "a", ""⟩, ⟨7, "b", ""⟩, ⟨7, "c", ""⟩] (some 7) = 1 ∧
    initialIndex [⟨(5 : Nat), "a", ""⟩, ⟨7, "b", ""⟩, ⟨7, "c", ""⟩]
      (none : Option Nat) = 0 ∧
    (∀ (its : List (ListItem Nat)) (d' : Nat),
      (∀ j (hj : j < its.length), its[j].value ≠ d') →
      initialIndex its (some d') = 0) :=
  select_default_initial_index [⟨5, "a", ""⟩, ⟨7, "b", ""⟩, ⟨7, "c", ""⟩] 7 1
    (by decide) (by decide)
    (by intro k hk hk1
        have hk0 : k = 0 := by omega
        subst hk0
        simp)

/-- One Input editing step keeps the cursor within the buffer length. -/
theorem inputStep_cursor_le (s : InputState) (k : KeyEvent)
    (h : s.cursor ≤ s.buffer.length) :
    (inputStep s k).cursor ≤ (inputStep s k).buffer.length := by
  cases k with
  | Char c =>
    show s.cursor + 1 ≤ (s.buffer.insertIdx s.cursor c).length
    rw [List.length_insertIdx _ _ h]
    omega
  | Backspace =>
    simp only [inputStep]
    split
    · exact h
    · rename_i hne
      show s.cursor - 1 ≤ (s.buffer.eraseIdx (s.cursor - 1)).length
      rw [List.length_eraseIdx_of_lt (by omega)]
      omega
  | ArrowLeft =>
    show s.cursor - 1 ≤ s.buffer.length
    omega
  | ArrowRight =>
    show min (s.cursor + 1) s.buffer.length ≤ s.buffer.length
    omega
  | _ => exact h

/-- C5: For every sequence of Input (or Password) key events from the fresh
state, the cursor offset stays within `[0, buffer length]`, and an empty
buffer forces cursor 0; Password editing is the very same state machine. -/
theorem input_cursor_bounds (ks : List KeyEvent) :
    (inputRun ks).cursor ≤ (inputRun ks).buffer.length ∧
    ((inputRun ks).buffer = [] → (inputRun ks).cursor = 0) ∧
    passwordRun ks = inputRun ks := by
  have main : ∀ (ks : List KeyEvent) (s : InputState), s.cursor ≤ s.buffer.length →
      (ks.foldl inputStep s).cursor ≤ (ks.foldl inputStep s).buffer.length := by
    intro ks
    induction ks with
    | nil => exact fun s h => h
    | cons k ks ih => exact fun s h => ih (inputStep s k) (inputStep_cursor_le s k h)
  have h1 : (inputRun ks).cursor ≤ (inputRun ks).buffer.length :=
    main ks ⟨[], 0⟩ (by simp)
  refine ⟨h1, ?_, rfl⟩
  intro hemp
  rw [hemp] at h1
  simpa using h1

/-- Membership after a single toggle: the toggled index flips, every other
index is untouched. -/
theorem mem_toggle (c : Finset Nat) (i x : Nat) :
    x ∈ toggle c i ↔ ((x = i ∧ x ∉ c) ∨ (x ≠ i ∧ x ∈ c)) := by
  unfold toggle
  by_cases hic : i ∈ c
  · rw [if_pos hic, Finset.mem_erase]
    constructor
    · rintro ⟨hxi, hxc⟩
      exact Or.inr ⟨hxi, hxc⟩
    · rintro (⟨rfl, hxc⟩ | ⟨hxi, hxc⟩)
      · exact absurd hic hxc
      · exact ⟨hxi, hxc⟩
  · rw [if_neg hic, Finset.mem_insert]
    constructor
    · rintro (rfl | hxc)
      · exact Or.inl ⟨rfl, hic⟩
      · by_cases hxi : x = i
        · subst hxi; exact absurd hxc hic
        · exact Or.inr ⟨hxi, hxc⟩
    · rintro (⟨rfl, _⟩ | ⟨_, hxc⟩)
      · exact Or.inl rfl
      · exact Or.inr hxc

/-- Membership after a whole toggle sequence is decided by the parity of
the number of times the index was toggled — the toggle order is
irrelevant. -/
theorem mem_toggleRun (ts : List Nat) :
    ∀ (c : Finset Nat) (x : Nat),
      x ∈ toggleRun ts c ↔ ((x ∈ c) ↔ ts.count x % 2 = 0) := by
  induction ts with
  | nil =>
    intro c x
    simp [toggleRun]
  | cons t ts ih =>
    intro c x
    have step : toggleRun (t :: ts) c = toggleRun ts (toggle c t) := rfl
    rw [step, ih (toggle c t) x, mem_toggle]
    by_cases hxt : x = t
    · subst hxt
      rw [List.count_cons_self]
      have hD : ((x = x ∧ x ∉ c) ∨ (x ≠ x ∧ x ∈ c)) ↔ (x ∉ c) := by
        constructor
        · rintro (⟨_, h⟩ | ⟨hne, _⟩)
          · exact h
          · exact absurd rfl hne
        · intro h
          exact Or.inl ⟨rfl, h⟩
      rw [hD]
      have hpar : (List.count x ts % 2 = 0) ↔ ¬((List.count x ts + 1) % 2 = 0) := by
        omega
      rw [hpar]
      tauto
    · rw [List.count_cons_of_ne hxt]
      have hD : ((x = t ∧ x ∉ c) ∨ (x ≠ t ∧ x ∈ c)) ↔ (x ∈ c) := by
        constructor
        · rintro (⟨heq, _⟩ | ⟨_, h⟩)
          · exact absurd heq hxt
          · exact h
        · intro h
          exact Or.inr ⟨hxt, h⟩
      rw [hD]

/-- The values of an enumerated item list are the item values. -/
theorem enum_map_value {T : Type} (items : List (ListItem T)) :
    items.enum.map (fun p => p.2.value) = items.map fun it => it.value := by
  have hsnd : items.enum.map Prod.snd = items := by
    rw [List.enum_eq_enumFrom]
    exact List.enumFrom_map_snd 0 items
  conv_rhs => rw [← hsnd]
  rw [List.map_map]
  rfl

/-- C2: For every MultiSelect prompt and every toggle sequence starting
from the empty checked set: the final checked set holds exactly the
indices toggled an odd number of times; any reordering of the toggle
sequence yields the same checked set and the same submission result; and
the submitted value list is a subsequence of the item values in original
item order. -/
theorem multiselect_order_preservation {T : Type} (items : List (ListItem T))
    (ts tr : List Nat) (hperm : ts.Perm tr) :
    (∀ i : Nat, i ∈ toggleRun ts ∅ ↔ ts.count i % 2 = 1) ∧
    toggleRun tr ∅ = toggleRun ts ∅ ∧
    msSubmitValues items (toggleRun tr ∅) = msSubmitValues items (toggleRun ts ∅) ∧
    (msSubmitValues items (toggleRun ts ∅)).Sublist (items.map fun it => it.value) := by
  have heq : toggleRun tr ∅ = toggleRun ts ∅ := by
    apply Finset.ext
    intro x
    rw [mem_toggleRun, mem_toggleRun, hperm.count_eq x]
  refine ⟨?_, heq, by rw [heq], ?_⟩
  · intro i
    rw [mem_toggleRun]
    simp only [Finset.not_mem_empty, false_iff]
    omega
  · unfold msSubmitValues
    have h1 : (items.enum.filter fun p => decide (p.1 ∈ toggleRun ts ∅)).Sublist
        items.enum := List.filter_sublist _
    have h2 := h1.map (fun p : Nat × ListItem T => p.2.value)
    rw [enum_map_value items] at h2
    exact h2

/-- Witness for C2: items with values `[10, 20, 30]`, toggling index 2 then
index 0 versus index 0 then index 2. -/
theorem multiselect_order_preservation_witness :
    (∀ i : Nat, i ∈ toggleRun [2, 0] ∅ ↔ List.count i [2, 0] % 2 = 1) ∧
    toggleRun [0, 2] ∅ = toggleRun [2, 0] ∅ ∧
    msSubmitValues [⟨10, "A", ""⟩, ⟨20, "B", ""⟩, ⟨30, "C", ""⟩]
        (toggleRun [0, 2] ∅)
      = msSubmitValues [⟨10, "A", ""⟩, ⟨20, "B", ""⟩, ⟨30, "C", ""⟩]
        (toggleRun [2, 0] ∅) ∧
    (msSubmitValues [⟨10, "A", ""⟩, ⟨20, "B", ""⟩, ⟨30, "C", ""⟩]
        (toggleRun [2, 0] ∅)).Sublist
      ([⟨10, "A", ""⟩, ⟨20, "B", ""⟩, ⟨30, "C", ""⟩].map
        fun it : ListItem Nat => it.value) :=
  multiselect_order_preservation [⟨10, "A", ""⟩, ⟨20, "B", ""⟩, ⟨30, "C", ""⟩]
    [2, 0] [0, 2] (by decide)

/-- C1: For every prompt variant (any handler) with any configured
Validator, pressing Esc while the prompt is Active transitions the outcome
to Cancelled immediately, and the Validator is never invoked on that path:
the resulting state is independent of the validator, even one rejecting
every value. -/
theorem esc_cancels_bypassing_validation {V : Type}
    (validator validator' : V → Option String)
    (handler : KeyEvent → V → KeyResult V)
    (s : PromptState V) (h : s.outcome = .Active) :
    (machineStep validator handler s .Escape).outcome = .Cancelled ∧
    machineStep validator handler s .Escape
      = machineStep validator' handler s .Escape := by
  constructor <;> rfl

/-- Witness for C1 at a concrete state, with a validator rejecting the
current candidate value. -/
theorem esc_cancels_bypassing_validation_witness :
    (machineStep (fun (_ : Nat) => some "rejected") (fun _ v => .submit v)
      ⟨7, none, .Active⟩ .Escape).outcome = .Cancelled ∧
    machineStep (fun (_ : Nat) => some "rejected") (fun _ v => .submit v)
      ⟨7, none, .Active⟩ .Escape
      = machineStep (fun (_ : Nat) => none) (fun _ v => .submit v)
        ⟨7, none, .Active⟩ .Escape :=
  esc_cancels_bypassing_validation (fun _ => some "rejected") (fun _ => none)
    (fun _ v => .submit v) ⟨7, none, .Active⟩ rfl

/-- Two consecutive frame indices of a running spinner differ when the
glyph sequence has at least two frames. -/
theorem mod_succ_ne (b n : Nat) (h2 : 2 ≤ n) (hb : b < n) : b ≠ (b + 1) % n := by
  by_cases hbn : b + 1 < n
  · rw [Nat.mod_eq_of_lt hbn]
    omega
  · have hbe : b + 1 = n := by omega
    rw [hbe, Nat.mod_self]
    omega

/-- C9: After `start`, each tick advances `frame_index` by one modulo the
glyph-sequence length, so the frames observed after one and after two tick
intervals are distinct (for any glyph sequence of at least two frames);
after `stop`, ticks are inert and the frame index never changes again. -/
theorem spinner_liveness (st : SpinnerState) (m m2 : String)
    (h2 : 2 ≤ st.numFrames) :
    (spinnerTick (spinnerStart st m)).frame_index
      = (st.frame_index + 1) % st.numFrames ∧
    (spinnerTick (spinnerStart st m)).frame_index
      ≠ (spinnerTick (spinnerTick (spinnerStart st m))).frame_index ∧
    (∀ s : SpinnerState, spinnerTick (spinnerStop s m2) = spinnerStop s m2) ∧
    (∀ (k : Nat) (s : SpinnerState),
      (spinnerTick^[k] (spinnerStop s m2)).frame_index = s.frame_index) := by
  have hfix : ∀ s : SpinnerState, spinnerTick (spinnerStop s m2) = spinnerStop s m2 := by
    intro s
    simp [spinnerTick, spinnerStop]
  have hiter : ∀ (k : Nat) (s : SpinnerState),
      spinnerTick^[k] (spinnerStop s m2) = spinnerStop s m2 := by
    intro k s
    induction k with
    | zero => rfl
    | succ k ih => rw [Function.iterate_succ_apply, hfix, ih]
  refine ⟨by simp [spinnerStart, spinnerTick], ?_, hfix, fun k s => by rw [hiter]; rfl⟩
  simp only [spinnerStart, spinnerTick]
  exact mod_succ_ne _ _ h2 (Nat.mod_lt _ (by omega))

/-- Witness for C9: a four-glyph spinner started from the default state. -/
theorem spinner_liveness_witness :
    (spinnerTick (spinnerStart ⟨4, 0, "", false⟩ "Installing...")).frame_index
      = (0 + 1) % 4 ∧
    (spinnerTick (spinnerStart ⟨4, 0, "", false⟩ "Installing...")).frame_index
      ≠ (spinnerTick (spinnerTick (spinnerStart ⟨4, 0, "", false⟩
          "Installing..."))).frame_index ∧
    (∀ s : SpinnerState, spinnerTick (spinnerStop s "Done") = spinnerStop s "Done") ∧
    (∀ (k : Nat) (s : SpinnerState),
      (spinnerTick^[k] (spinnerStop s "Done")).frame_index = s.frame_index) :=
  spinner_liveness ⟨4, 0, "", false⟩ "Installing..." "Done" (by decide)

/-- C3 counterexample: the item value type of the `select` and
`multiselect` constructors is not constrained by equality alone — the
bounds on `src/lib.rs` lines 220 and 227 also demand the defaulting and
cloning capabilities (`T: Default + Clone + Eq`). -/
theorem select_bounds_not_eq_only :
    ¬(∀ c ∈ select_bounds, c = Capability.eqCap) ∧
    ¬(∀ c ∈ multiselect_bounds, c = Capability.eqCap) := by
  decide

/-- C3 (amended): the `select` and `multiselect` constructors require the
equality, defaulting and cloning capabilities of the item value type, and
no ordering or hashing capability. -/
theorem select_bounds_no_ord_hash :
    Capability.ordCap ∉ select_bounds ∧
    Capability.hashCap ∉ select_bounds ∧
    Capability.eqCap ∈ select_bounds ∧
    Capability.defaultCap ∈ select_bounds ∧
    Capability.cloneCap ∈ select_bounds ∧
    Capability.ordCap ∉ multiselect_bounds ∧
    Capability.hashCap ∉ multiselect_bounds ∧
    Capability.eqCap ∈ multiselect_bounds ∧
    Capability.defaultCap ∈ multiselect_bounds ∧
    Capability.cloneCap ∈ multiselect_bounds := by
  decide

/-- C10: every non-interactive message function — `intro`, `outro`,
`outro_cancel`, `note`, and the whole `log` submodule — emits actions on
the standard error stream only, for every theme and every message, while
`clear_screen` is the one formatting function that also touches standard
output. -/
theorem messages_stderr_only (th : ThemeModel) (a b : String) :
    (intro th a).all stderrOnly = true ∧
    (outro th a).all stderrOnly = true ∧
    (outro_cancel th a).all stderrOnly = true ∧
    (note th a b).all stderrOnly = true ∧
    (log.log th a b).all stderrOnly = true ∧
    (log.remark th a).all stderrOnly = true ∧
    (log.info th a).all stderrOnly = true ∧
    (log.warning th a).all stderrOnly = true ∧
    (log.error th a).all stderrOnly = true ∧
    (log.success th a).all stderrOnly = true ∧
    (log.step th a).all stderrOnly = true ∧
    clear_screen.all stderrOnly = false ∧
    TermAction.clear .stdout ∈ clear_screen := by
  refine ⟨rfl, rfl, rfl, rfl, rfl, rfl, rfl, rfl, rfl, rfl, rfl, rfl, ?_⟩
  decide

end Cliclack
